import Mathlib

/-!
Verification development for the cog-agentic predictor core:
schema derivation (`predictor.py`), predictor loading, weights resolution
for `setup()`, the `Log` event type (`server/eventtypes.py`) and
`BaseInput.cleanup`.  Python values, annotations and the few dynamic
behaviours the code relies on are shallowly embedded as Lean data types;
each definition mirrors the control flow of the named source function.
-/

namespace Cog

/-- A Python runtime value, restricted to the kinds that occur as defaults
and choice members in input declarations. -/
inductive PyVal where
  | str (s : String)
  | int (n : Int)
  | bool (b : Bool)
  deriving DecidableEq, Repr

/-- A parameter type annotation as `inspect` reports it: `empty` is
`inspect.Signature.empty`; the seven atoms are the members of
`ALLOWED_INPUT_TYPES` (str, int, float, bool, cog File, Path, Secret);
`other` is any class outside that list; `literal`, `union`, `list` are the
`typing` generics the validator recurses through. -/
inductive Ann where
  | empty
  | str
  | int
  | float
  | bool
  | file
  | path
  | secret
  | other (nm : String)
  | literal (vals : List PyVal)
  | union (args : List Ann)
  | list (arg : Ann)

/-- Test `type is inspect.Signature.empty`. -/
def Ann.isEmptyTag : Ann → Bool
  | .empty => true
  | _ => false

/-- Test `InputType == str`. -/
def Ann.isStrTag : Ann → Bool
  | .str => true
  | _ => false

/-- Test `InputType == int`. -/
def Ann.isIntTag : Ann → Bool
  | .int => true
  | _ => false

/-- Class of a literal member (`builtins.type(v)`), as an annotation atom. -/
def annOfVal : PyVal → Ann
  | .str _ => .str
  | .int _ => .int
  | .bool _ => .bool

/-- Membership `type in ALLOWED_INPUT_TYPES` (predictor.py line 488). -/
def isAllowedInputType : Ann → Bool
  | .str => true
  | .int => true
  | .float => true
  | .bool => true
  | .file => true
  | .path => true
  | .secret => true
  | _ => false

/-- The error taxonomy of the schema deriver (spec section 7): the Python
code raises `TypeError` with distinguishing messages; we carry the
offending parameter name. -/
inductive SchemaErr where
  | missingType (param : String)
  | unsupportedType (param : String)
  | invalidChoiceType (param : String)
  | missingOutputType
  deriving DecidableEq, Repr

/-- Model of `validate_input_type(type, name)` (predictor.py lines 480-505):
`Signature.empty` fails with MissingType; a member of
`ALLOWED_INPUT_TYPES` passes; `Literal` recurses into the classes of its
member values; `Union`/`List` recurse into their arguments; anything else
fails with UnsupportedType. -/
def validate_input_type (t : Ann) (nm : String) : Except SchemaErr Unit :=
  if t.isEmptyTag then .error (.missingType nm)
  else if isAllowedInputType t then .ok ()
  else
    match t with
    | .literal vals => vals.foldlM (fun _ v => validate_input_type (annOfVal v) nm) ()
    | .union args => args.attach.foldlM (fun _ x => validate_input_type x.1 nm) ()
    | .list a => validate_input_type a nm
    | _ => .error (.unsupportedType nm)
termination_by sizeOf t
decreasing_by
  · cases v <;> simp [annOfVal] <;> cases vals <;> simp
  · have := List.sizeOf_lt_of_mem x.2
    simp only [Ann.union.sizeOf_spec]
    omega
  · simp only [Ann.list.sizeOf_spec]
    omega

/-- The `json_schema_extra` / `extra` dictionary of a field, projected to
the keys the deriver touches: `x-order`, `choices` (pydantic v1 spelling)
and `enum` (pydantic v2 spelling). -/
structure Extra where
  xOrder : Option Nat := none
  choices : Option (List PyVal) := none
  enumKey : Option (List PyVal) := none
  deriving DecidableEq, Repr

/-- A pydantic `FieldInfo` as produced by the `Input(...)` default-carrier:
an optional default value plus the extra dictionary. -/
structure FieldInfo where
  dflt : Option PyVal := none
  extra : Extra := {}
  deriving DecidableEq, Repr

/-- Shape of `parameter.default`: absent (`Signature.empty`), a raw Python value,
or an `Input(...)` field-info carrier. -/
inductive DefaultArg where
  | raw (v : PyVal)
  | fieldInfo (fi : FieldInfo)
  deriving DecidableEq, Repr

/-- One entry of `signature.parameters`: name, annotation, default. -/
structure Param where
  name : String
  ann : Ann
  dflt : Option DefaultArg

/-- Python truthiness of `None`-or-list: `None` and `[]` are falsy. -/
def pyTruthyList : Option (List PyVal) → Bool
  | some (_ :: _) => true
  | _ => false

/-- The pop chain `extra.pop("choices", None) or extra.pop("enum", None)`: both keys are
removed; the value is the first truthy one (predictor.py lines 540-545). -/
def popChoices (e : Extra) : Option (List PyVal) × Extra :=
  (if pyTruthyList e.choices then e.choices else e.enumKey,
   { e with choices := none, enumKey := none })

/-- Python `str(v)` on a choice value, used as the enum member key. -/
def pyStr : PyVal → String
  | .str s => s
  | .int n => toString n
  | .bool b => if b then "True" else "False"

/-- Insertion into a Python dict: an existing key keeps its position and
takes the new value; a new key is appended. -/
def dictInsert (kvs : List (String × PyVal)) (k : String) (v : PyVal) :
    List (String × PyVal) :=
  if kvs.any (fun p => p.1 = k) then
    kvs.map (fun p => if p.1 = k then (k, v) else p)
  else kvs ++ [(k, v)]

/-- The dict comprehension over pairs, keyed by the string of each value. -/
def dictOfPairs (ps : List (String × PyVal)) : List (String × PyVal) :=
  ps.foldl (fun acc p => dictInsert acc p.1 p.2) []

/-- The `InputType` finally stored in `create_model_kwargs`: either the
declared annotation, or the enumerated type synthesized from choices
(`StringEnum(name, [(v, v) for v in choices])` for str,
`enum.IntEnum(name, {str(v): v for v in choices})` for int), with its
member list in definition order. -/
inductive FieldType where
  | plain (a : Ann)
  | strEnum (nm : String) (members : List (String × PyVal))
  | intEnum (nm : String) (members : List (String × PyVal))

/-- One entry of the result of `get_input_create_model_kwargs`:
`create_model_kwargs[name] = (InputType, default)`. -/
structure ParamSpec where
  name : String
  ty : FieldType
  info : FieldInfo

/-- The body of the `for name, parameter in signature.parameters.items()`
loop of `get_input_create_model_kwargs` (predictor.py lines 513-562) for a
single parameter at position `order`: validate the annotation, build the
default carrier, record `x-order`, then synthesize an enum if a truthy
choice set was declared. -/
def processParam (p : Param) (order : Nat) : Except SchemaErr ParamSpec := do
  validate_input_type p.ann p.name
  let d : FieldInfo :=
    match p.dflt with
    | none => {}
    | some (.raw v) => { dflt := some v }
    | some (.fieldInfo fi) => fi
  let e0 : Extra := { d.extra with xOrder := some order }
  let (cs, e1) := popChoices e0
  let info : FieldInfo := { d with extra := e1 }
  if pyTruthyList cs then
    let vals := cs.getD []
    if p.ann.isStrTag then
      .ok { name := p.name, ty := .strEnum p.name (vals.map fun v => (pyStr v, v)),
            info := info }
    else if p.ann.isIntTag then
      .ok { name := p.name, ty := .intEnum p.name (dictOfPairs (vals.map fun v => (pyStr v, v))),
            info := info }
    else
      .error (.invalidChoiceType p.name)
  else
    .ok { name := p.name, ty := .plain p.ann, info := info }

/-- The loop of `get_input_create_model_kwargs` with its running `order`
counter. -/
def inputKwargsAux : List Param → Nat → Except SchemaErr (List ParamSpec)
  | [], _ => .ok []
  | p :: rest, order => do
    let spec ← processParam p order
    let specs ← inputKwargsAux rest (order + 1)
    .ok (spec :: specs)

/-- Model of `get_input_create_model_kwargs(signature)` (predictor.py lines
508-564): the ordered field specifications derived from a predict/train
signature, starting the `x-order` counter at 0. -/
def get_input_create_model_kwargs (params : List Param) :
    Except SchemaErr (List ParamSpec) :=
  inputKwargsAux params 0

/-- The choice set a parameter declaration carries after the pop chain,
before the truthiness test. -/
def effectiveChoices (p : Param) : Option (List PyVal) :=
  match p.dflt with
  | some (.fieldInfo fi) => (popChoices { fi.extra with xOrder := fi.extra.xOrder }).1
  | _ => none

/-- A return type annotation as `signature.return_annotation` reports it:
absent, `typing.Any`, `Iterator[T]`, a type of the input universe, or a
user-defined class with the given `__name__`. -/
inductive RAnn where
  | empty
  | any
  | iter (elem : Ann)
  | base (t : Ann)
  | custom (tyName : String)

/-- The `__name__` of an annotation atom of the input universe. -/
def annName : Ann → String
  | .empty => ""
  | .str => "str"
  | .int => "int"
  | .float => "float"
  | .bool => "bool"
  | .file => "File"
  | .path => "Path"
  | .secret => "Secret"
  | .other nm => nm
  | .literal _ => ""
  | .union _ => ""
  | .list _ => ""

/-- The name `OutputType.__name__ if hasattr(OutputType, "__name__") else ""`
(predictor.py line 636).  `typing.Any` and the `typing` generics carry no
`__name__` on the supported interpreters, so they yield the empty
string. -/
def rannName : RAnn → String
  | .empty => ""
  | .any => ""
  | .iter _ => ""
  | .base t => annName t
  | .custom nm => nm

/-- The final Output type descriptor: `annotatedList t` is
`Annotated[List[t], Field(x-cog-array-type=iterator)]`, the streaming
marker attached by the Iterator branch. -/
inductive OutDesc where
  | any
  | base (t : Ann)
  | custom (tyName : String)
  | annotatedList (elem : Ann)

/-- How `get_output_type` envelopes the derived type: returned unchanged
when already named Output; subclassed into an `Output` wrapper when named
TrainingOutput; otherwise wrapped in a root model named Output. -/
inductive OutWrap where
  | asIs
  | inheritOutput
  | rootModel

/-- The result of output-schema derivation: the type descriptor, whether
the streaming (`x-cog-array-type = iterator`) marker is attached, and the
envelope. -/
structure OutputModel where
  ty : OutDesc
  streaming : Bool
  wrap : OutWrap

/-- The non-Iterator descriptor of a return annotation. -/
def outDescOf : RAnn → OutDesc
  | .empty => .any
  | .any => .any
  | .iter t => .annotatedList t
  | .base t => .base t
  | .custom nm => .custom nm

/-- Model of `get_output_type(predictor)` (predictor.py lines 600-671), as a
function of the predict return annotation: a missing annotation fails with
MissingOutputType; `Iterator[T]` becomes `Annotated[List[T], ...]` with
the iterator marker; then the result is enveloped according to its
`__name__` (the `Annotated[...]` object has none). -/
def get_output_type (ret : RAnn) : Except SchemaErr OutputModel :=
  match ret with
  | .empty => .error .missingOutputType
  | r =>
    let (desc, streaming) :=
      match r with
      | .iter t => (OutDesc.annotatedList t, true)
      | r => (outDescOf r, false)
    let nm :=
      match r with
      | .iter _ => ""
      | r => rannName r
    if nm = "Output" then .ok { ty := desc, streaming := streaming, wrap := .asIs }
    else if nm = "TrainingOutput" then
      .ok { ty := desc, streaming := streaming, wrap := .inheritOutput }
    else .ok { ty := desc, streaming := streaming, wrap := .rootModel }

/-! ### Predictor loading (`load_predictor_from_ref` and the slim path) -/

/-- A loader failure: the message of the Python exception. -/
abbrev LoadErr := String

/-- The runtime world the loaders act on.  Modules and predictor instances
are opaque tokens; `slimLoad` is `load_slim_predictor_from_file` (reading
the file, `strip_model_source_code`, `load_module_from_string`), which may
raise, return no module, or return one; `fullLoad` is
`load_full_predictor_from_file`; `getPred` is `get_predictor` (attribute
lookup plus instantiation, which may raise). `py39` is
`sys.version_info >= (3, 9)`. -/
structure LoaderWorld where
  py39 : Bool
  slimLoad : String → String → String → Except LoadErr (Option Nat)
  fullLoad : String → String → Except LoadErr Nat
  getPred : Nat → String → Except LoadErr Nat

/-- The split `ref.split(":", 1)`: the module path and the symbol name.  (On a ref
without a colon Python raises the same unpack error in both loaders; we
return an empty symbol, which both loaders then treat identically.) -/
def pySplitRef (ref : String) : String × String :=
  match ref.splitOn ":" with
  | [] => (ref, "")
  | [a] => (a, "")
  | a :: rest => (a, String.intercalate ":" rest)

/-- Python `os.path.basename`. -/
def pyBasename (p : String) : String :=
  match (p.splitOn "/").reverse with
  | [] => p
  | last :: _ => last

/-- The module name `os.path.basename(module_path).split(".py", 1)[0]`. -/
def moduleNameOf (modulePath : String) : String :=
  match (pyBasename modulePath).splitOn ".py" with
  | [] => pyBasename modulePath
  | s :: _ => s

/-- Model of `load_predictor_from_ref(ref)` (predictor.py lines 442-447): full
loading of the module followed by symbol lookup / instantiation. -/
def load_predictor_from_ref (w : LoaderWorld) (ref : String) : Except LoadErr Nat :=
  let (modulePath, className) := pySplitRef ref
  let moduleName := moduleNameOf modulePath
  match w.fullLoad modulePath moduleName with
  | .error e => .error e
  | .ok m => w.getPred m className

/-- Model of `load_slim_predictor_from_ref(ref, method_name)` (predictor.py lines
421-439): try the slim strategy when the interpreter supports it,
swallowing any exception (`except Exception`) and any `None` result; in
the `finally` block fall back to full loading when no module was
obtained. -/
def load_slim_predictor_from_ref (w : LoaderWorld) (ref methodName : String) :
    Except LoadErr Nat :=
  let (modulePath, className) := pySplitRef ref
  let moduleName := moduleNameOf modulePath
  let slim : Option Nat :=
    if w.py39 then
      match w.slimLoad modulePath className methodName with
      | .ok m => m
      | .error _ => none
    else none
  match slim with
  | some m => w.getPred m className
  | none =>
    match w.fullLoad modulePath moduleName with
    | .error e => .error e
    | .ok m => w.getPred m className

/-! ### Hiding argv during module import -/

/-- Model of `load_full_predictor_from_file(module_path, module_name)` (predictor.py
lines 389-400), as a function of the process argv and of the module body
(abstracted as a function of the argv it observes):
`with patch("sys.argv", sys.argv[:1])` executes the module under
`sys.argv[:1]` and restores the original argv afterwards.  The result is
the executed module paired with the process argv after the import. -/
def load_full_predictor_from_file (argv : List String)
    (execModule : List String → Nat) : Nat × List String :=
  (execModule (argv.take 1), argv)

/-- Modelled from the spec: `load_module_from_string` lives in
`code_xforms.py`, which is not under src/; per the spec, process-visible
command-line arguments are hidden from the imported module during
import, so the stripped module body executes under `argv[:1]` and argv is
restored afterwards. -/
def load_module_from_string (argv : List String)
    (execModule : List String → Nat) : Nat × List String :=
  (execModule (argv.take 1), argv)

/-- Model of `load_slim_predictor_from_file(module_path, class_name, method_name)`
(predictor.py lines 403-410): read the source, strip it
(`strip_model_source_code`, which may yield no module body — modelled as
an optional stripped module), and execute the stripped source.  Returns
the optional module and the process argv after the import. -/
def load_slim_predictor_from_file (argv : List String)
    (stripped : Option (List String → Nat)) : Option Nat × List String :=
  match stripped with
  | none => (none, argv)
  | some f =>
    let r := load_module_from_string argv f
    (some r.1, r.2)

/-! ### Weights resolution for `setup()` -/

/-- The base types a `weights` annotation can name: cog File, cog Path,
str, or some other class. -/
inductive WBase where
  | file
  | path
  | str
  | other (nm : String)
  deriving DecidableEq, Repr

/-- The annotation of the `weights` parameter of `setup`: missing
(`Signature.empty`), a plain type, or `Optional[T]`
(`Union[T, None]`). -/
inductive WAnn where
  | empty
  | plain (t : WBase)
  | optional (t : WBase)
  deriving DecidableEq, Repr

/-- What `get_weights_type` returns when the parameter exists:
`Signature.empty` or a base type. -/
inductive WType where
  | empty
  | base (t : WBase)
  deriving DecidableEq, Repr

/-- Model of `get_weights_type(setup_function)` (predictor.py lines 339-349):
`None` when `setup` has no `weights` parameter; otherwise the annotation,
with one level of `Optional` unwrapped. -/
def get_weights_type (weightsParam : Option WAnn) : Option WType :=
  match weightsParam with
  | none => none
  | some .empty => some .empty
  | some (.plain t) => some (.base t)
  | some (.optional t) => some (.base t)

/-- A runtime value bound to `weights` before calling `setup`. -/
inductive WVal where
  | fileV (tok : Nat)
  | pathV (tok : Nat)
  | strV (s : String)
  | localFile
  | localPath
  deriving DecidableEq, Repr

/-- The observable outcome of `run_setup`: `setup()` called with no
argument, or `setup(weights=w)` (where `w` may be `None`). -/
inductive SetupCall where
  | noArgs
  | withWeights (w : Option WVal)
  deriving DecidableEq, Repr

/-- The `ValueError` run_setup raises: "Predictor.setup() has an argument
weights of type ..., but only File, Path and str are supported", carrying
the offending declared type. -/
inductive SetupErr where
  | valueError (wt : WType)
  deriving DecidableEq, Repr

/-- The environment `run_setup` consults.  `cogWeights` is
`os.environ.get("COG_WEIGHTS")`; `weightsPathExists` is
`os.path.exists("weights")`; `pydanticV2` is the `PYDANTIC_V2` flag of
`cog.types`.  The four validators live in `cog.types` (not under src/)
and are abstracted: `fileAdapter`/`pathAdapter` are the pydantic-v2
`TypeAdapter(...).validate_python` calls, which may reject; `fileValidate`
and `pathValidate` are the pydantic-v1 `File.validate`/`Path.validate`
calls, returning the validated object. -/
structure SetupEnv where
  pydanticV2 : Bool
  cogWeights : Option String
  weightsPathExists : Bool
  fileAdapter : String → Option Nat
  pathAdapter : String → Option Nat
  fileValidate : String → Nat
  pathValidate : String → Nat

/-- Python truthiness of `os.environ.get(...)`: `None` and the empty
string are falsy. -/
def pyTruthyStr : Option String → Bool
  | some s => !s.isEmpty
  | none => false

/-- Model of `run_setup(predictor)` (predictor.py lines 277-336), as a function of
the environment and of the `weights` parameter of `predictor.setup`.
With no `weights` parameter, `setup()` is called bare.  With a truthy
`COG_WEIGHTS`: under pydantic v2 the url is validated as File, then as
Path, and only when both reject is the declared type consulted (str
passes the url through, anything else raises); under pydantic v1 the
declared type dispatches directly (File/Path validate, str passes
through, anything else raises).  Otherwise, when the local path
`"weights"` exists, a declared File opens it and a declared Path wraps
it, and any other declared type raises.  Otherwise `weights = None` and
`setup(weights=None)` is called. -/
def run_setup (env : SetupEnv) (weightsParam : Option WAnn) :
    Except SetupErr SetupCall :=
  match get_weights_type weightsParam with
  | none => .ok .noArgs
  | some wt =>
    if pyTruthyStr env.cogWeights then
      let url := env.cogWeights.getD ""
      if env.pydanticV2 then
        match env.fileAdapter url with
        | some tok => .ok (.withWeights (some (.fileV tok)))
        | none =>
          match env.pathAdapter url with
          | some tok => .ok (.withWeights (some (.pathV tok)))
          | none =>
            if wt = .base .str then .ok (.withWeights (some (.strV url)))
            else .error (.valueError wt)
      else
        if wt = .base .file then .ok (.withWeights (some (.fileV (env.fileValidate url))))
        else if wt = .base .path then .ok (.withWeights (some (.pathV (env.pathValidate url))))
        else if wt = .base .str then .ok (.withWeights (some (.strV url)))
        else .error (.valueError wt)
    else if env.weightsPathExists then
      if wt = .base .file then .ok (.withWeights (some .localFile))
      else if wt = .base .path then .ok (.withWeights (some .localPath))
      else .error (.valueError wt)
    else .ok (.withWeights none)

/-! ### The Log event (server/eventtypes.py) -/

/-- The `Log` event: `message` and `source`, the latter guarded by
`field(validator=validators.in_(["stdout", "stderr"]))`. -/
structure Log where
  message : String
  source : String
  deriving DecidableEq, Repr

/-- Construction of a `Log` (eventtypes.py lines 39-42): the attrs
validator raises `ValueError` when `source` is not in
`["stdout", "stderr"]`, so construction yields a value only for those two
sources. -/
def mkLog (message source : String) : Option Log :=
  if source ∈ ["stdout", "stderr"] then some { message := message, source := source }
  else none

/-! ### `BaseInput.cleanup` (predictor.py lines 462-477) -/

/-- A field value of an input instance, as `cleanup` classifies it:
a `URLPath`, a `pathlib.Path` (which `cog.Path` subclasses), or any
other value, which `cleanup` leaves untouched. -/
inductive FieldVal where
  | urlPath (p : String)
  | pathVal (p : String)
  | otherVal (v : PyVal)
  deriving DecidableEq, Repr

/-- The Python exception `unlink` can raise in this model. -/
inductive PyErr where
  | fileNotFound
  deriving DecidableEq, Repr

/-- Model of `value.unlink()` against a filesystem modelled as the list of
existing paths: removes the file, or raises `FileNotFoundError` when it
does not exist. -/
def unlink (fs : List String) (p : String) : Except PyErr (List String) :=
  if p ∈ fs then .ok (fs.filter (fun q => q ≠ p)) else .error .fileNotFound

/-- One iteration of the `cleanup` loop: path-like values are unlinked
with `FileNotFoundError` swallowed (`except FileNotFoundError: pass`);
other values are skipped. -/
def cleanupStep (fs : List String) (v : FieldVal) : Except PyErr (List String) :=
  match v with
  | .urlPath p =>
    match unlink fs p with
    | .error .fileNotFound => .ok fs
    | r => r
  | .pathVal p =>
    match unlink fs p with
    | .error .fileNotFound => .ok fs
    | r => r
  | .otherVal _ => .ok fs

/-- Model of `BaseInput.cleanup(self)`: iterate over the field values of the
input, unlinking the path-like ones. -/
def cleanup (fs : List String) (vals : List FieldVal) : Except PyErr (List String) :=
  vals.foldlM cleanupStep fs

/-- The paths of the path-like field values, in order. -/
def pathsOf : List FieldVal → List String
  | [] => []
  | .urlPath p :: rest => p :: pathsOf rest
  | .pathVal p :: rest => p :: pathsOf rest
  | .otherVal _ :: rest => pathsOf rest

/-! ## Helper lemmas -/

theorem Ann.isStrTag_iff {t : Ann} : t.isStrTag = true ↔ t = .str := by
  cases t <;> simp [Ann.isStrTag]

theorem Ann.isIntTag_iff {t : Ann} : t.isIntTag = true ↔ t = .int := by
  cases t <;> simp [Ann.isIntTag]

theorem validate_str (nm : String) : validate_input_type .str nm = .ok () := by
  simp [validate_input_type, Ann.isEmptyTag, isAllowedInputType]

theorem validate_int (nm : String) : validate_input_type .int nm = .ok () := by
  simp [validate_input_type, Ann.isEmptyTag, isAllowedInputType]

theorem validate_float (nm : String) : validate_input_type .float nm = .ok () := by
  simp [validate_input_type, Ann.isEmptyTag, isAllowedInputType]

/-- Success shape of the per-parameter step: when the annotation
validates and any truthy choice set sits on a str or int annotation, the
step succeeds with the parameter name and the given ordinal. -/
theorem processParam_ok (p : Param) (order : Nat)
    (hv : validate_input_type p.ann p.name = .ok ())
    (hc : pyTruthyList (effectiveChoices p) = false ∨
          p.ann.isStrTag = true ∨ p.ann.isIntTag = true) :
    ∃ spec, processParam p order = .ok spec ∧ spec.name = p.name ∧
      spec.info.extra.xOrder = some order := by
  obtain ⟨nm, t, dopt⟩ := p
  match dopt with
  | none =>
    refine ⟨⟨nm, .plain t, ⟨none, ⟨some order, none, none⟩⟩⟩, ?_, rfl, rfl⟩
    simp only [processParam, hv]
    rfl
  | some (.raw v) =>
    refine ⟨⟨nm, .plain t, ⟨some v, ⟨some order, none, none⟩⟩⟩, ?_, rfl, rfl⟩
    simp only [processParam, hv]
    rfl
  | some (.fieldInfo fi) =>
    have hC : effectiveChoices ⟨nm, t, some (.fieldInfo fi)⟩ =
        (if pyTruthyList fi.extra.choices then fi.extra.choices else fi.extra.enumKey) := rfl
    rw [hC] at hc
    by_cases htr : pyTruthyList (if pyTruthyList fi.extra.choices then fi.extra.choices
        else fi.extra.enumKey) = true
    · rcases hc with hc | hc | hc
      · simp_all
      · rw [Ann.isStrTag_iff] at hc
        subst hc
        refine ⟨⟨nm, .strEnum nm (((if pyTruthyList fi.extra.choices then fi.extra.choices
            else fi.extra.enumKey).getD []).map fun v => (pyStr v, v)),
            ⟨fi.dflt, ⟨some order, none, none⟩⟩⟩, ?_, rfl, rfl⟩
        simp only [processParam, hv, popChoices, htr, if_pos, Ann.isStrTag]
        rfl
      · rw [Ann.isIntTag_iff] at hc
        subst hc
        refine ⟨⟨nm, .intEnum nm (dictOfPairs (((if pyTruthyList fi.extra.choices then
            fi.extra.choices else fi.extra.enumKey).getD []).map fun v => (pyStr v, v))),
            ⟨fi.dflt, ⟨some order, none, none⟩⟩⟩, ?_, rfl, rfl⟩
        simp only [processParam, hv, popChoices, htr, if_pos, Ann.isStrTag, Ann.isIntTag]
        rfl
    · refine ⟨⟨nm, .plain t, ⟨fi.dflt, ⟨some order, none, none⟩⟩⟩, ?_, rfl, rfl⟩
      simp only [processParam, hv, popChoices, htr]
      rfl

/-- Success shape of the derivation loop from an arbitrary ordinal. -/
theorem inputKwargsAux_ok (params : List Param) (order : Nat)
    (hv : ∀ p ∈ params, validate_input_type p.ann p.name = .ok ())
    (hc : ∀ p ∈ params, pyTruthyList (effectiveChoices p) = false ∨
          p.ann.isStrTag = true ∨ p.ann.isIntTag = true) :
    ∃ specs, inputKwargsAux params order = .ok specs ∧
      specs.map ParamSpec.name = params.map Param.name ∧
      ∀ i (h : i < specs.length),
        (specs.get ⟨i, h⟩).info.extra.xOrder = some (order + i) := by
  induction params generalizing order with
  | nil =>
    exact ⟨[], rfl, rfl, fun i h => absurd h (by simp)⟩
  | cons p rest ih =>
    obtain ⟨spec, hps, hname, hord⟩ :=
      processParam_ok p order (hv p (.head _)) (hc p (.head _))
    obtain ⟨specs, haux, hmap, hords⟩ :=
      ih (order + 1) (fun q hq => hv q (.tail _ hq)) (fun q hq => hc q (.tail _ hq))
    refine ⟨spec :: specs, ?_, ?_, ?_⟩
    · simp only [inputKwargsAux]
      rw [hps, haux]
      rfl
    · simp [hname, hmap]
    · intro i h
      match i with
      | 0 => simpa using hord
      | j + 1 =>
        have hj := hords j (by simpa using h)
        simpa [Nat.add_comm, Nat.add_left_comm] using hj

theorem dictInsert_fresh (kvs : List (String × PyVal)) (k : String) (v : PyVal)
    (h : ∀ q ∈ kvs, q.1 ≠ k) : dictInsert kvs k v = kvs ++ [(k, v)] := by
  unfold dictInsert
  rw [if_neg]
  simp only [List.any_eq_true, decide_eq_true_eq, not_exists]
  intro q
  exact fun hq => h q hq.1 hq.2

theorem dictFold_fresh : ∀ (ps acc : List (String × PyVal)),
    (∀ q ∈ ps, ∀ r ∈ acc, r.1 ≠ q.1) → (ps.map Prod.fst).Nodup →
    ps.foldl (fun a p => dictInsert a p.1 p.2) acc = acc ++ ps := by
  intro ps
  induction ps with
  | nil => intro acc _ _; simp
  | cons p rest ih =>
    intro acc hfresh hnd
    have h1 : dictInsert acc p.1 p.2 = acc ++ [p] :=
      dictInsert_fresh acc p.1 p.2 (fun r hr => hfresh p (.head _) r hr)
    have h2 : ∀ q ∈ rest, ∀ r ∈ acc ++ [p], r.1 ≠ q.1 := by
      intro q hq r hr
      rcases List.mem_append.mp hr with hr | hr
      · exact hfresh q (.tail _ hq) r hr
      · have : r = p := by simpa using hr
        subst this
        have : q.1 ∈ rest.map Prod.fst := List.mem_map_of_mem _ hq
        intro hcon
        rw [List.map_cons, List.nodup_cons] at hnd
        exact hnd.1 (hcon ▸ this)
    have h3 : (rest.map Prod.fst).Nodup := by
      rw [List.map_cons, List.nodup_cons] at hnd
      exact hnd.2
    calc (p :: rest).foldl (fun a q => dictInsert a q.1 q.2) acc
        = rest.foldl (fun a q => dictInsert a q.1 q.2) (dictInsert acc p.1 p.2) := rfl
      _ = (acc ++ [p]) ++ rest := by rw [h1]; exact ih (acc ++ [p]) h2 h3
      _ = acc ++ p :: rest := by simp

/-- With pairwise-distinct keys the dict comprehension preserves the pair
list exactly. -/
theorem dictOfPairs_nodup (ps : List (String × PyVal))
    (h : (ps.map Prod.fst).Nodup) : dictOfPairs ps = ps := by
  unfold dictOfPairs
  simpa using dictFold_fresh ps [] (by simp) h

/-! ## Claims -/

/-- C1, counterexample input: one float-annotated parameter (an allowed
input type) declaring a non-empty choice set. -/
def c1CexParams : List Param :=
  [{ name := "x", ann := .float,
     dflt := some (.fieldInfo { extra := { choices := some [.int 1] } }) }]

/-- C1, as stated, is false: every parameter of `c1CexParams` is annotated
with an allowed type, yet input-schema derivation yields no parameter
specs at all — it fails with InvalidChoiceType. -/
theorem C1_counterexample :
    (∀ p ∈ c1CexParams, validate_input_type p.ann p.name = .ok ()) ∧
    get_input_create_model_kwargs c1CexParams = .error (.invalidChoiceType "x") ∧
    ∀ specs, get_input_create_model_kwargs c1CexParams ≠ .ok specs := by
  have hval : validate_input_type Ann.float "x" = .ok () := validate_float "x"
  have herr : get_input_create_model_kwargs c1CexParams = .error (.invalidChoiceType "x") := by
    simp only [c1CexParams, get_input_create_model_kwargs, inputKwargsAux, processParam, hval]
    rfl
  refine ⟨?_, herr, ?_⟩
  · intro p hp
    have : p = c1CexParams.head (by simp [c1CexParams]) := by
      simpa [c1CexParams] using hp
    subst this
    exact hval
  · intro specs hcon
    rw [herr] at hcon
    exact Except.noConfusion hcon

/-- C1 (amended): for a signature whose parameters all carry allowed
annotations and whose non-empty choice sets sit only on str or int
parameters, derivation yields exactly one spec per parameter, in
declaration order, with x-order ordinals 0..N-1; names carry over, so
signature-unique names stay unique in the schema. -/
theorem C1_input_schema_ordinals (params : List Param)
    (hv : ∀ p ∈ params, validate_input_type p.ann p.name = .ok ())
    (hc : ∀ p ∈ params, pyTruthyList (effectiveChoices p) = false ∨
          p.ann.isStrTag = true ∨ p.ann.isIntTag = true) :
    ∃ specs, get_input_create_model_kwargs params = .ok specs ∧
      specs.length = params.length ∧
      specs.map ParamSpec.name = params.map Param.name ∧
      (∀ i (h : i < specs.length), (specs.get ⟨i, h⟩).info.extra.xOrder = some i) ∧
      ((params.map Param.name).Nodup → (specs.map ParamSpec.name).Nodup) := by
  obtain ⟨specs, h1, h2, h3⟩ := inputKwargsAux_ok params 0 hv hc
  refine ⟨specs, h1, ?_, h2, ?_, ?_⟩
  · have := congrArg List.length h2
    simpa using this
  · intro i h
    simpa using h3 i h
  · intro hnd
    rwa [h2]

/-- C1, witness input: `predict(text: str, count: int = 1)`. -/
def c1WitnessParams : List Param :=
  [{ name := "text", ann := .str, dflt := none },
   { name := "count", ann := .int, dflt := some (.raw (.int 1)) }]

theorem C1_input_schema_ordinals_witness :
    ∃ specs, get_input_create_model_kwargs c1WitnessParams = .ok specs ∧
      specs.length = c1WitnessParams.length ∧
      specs.map ParamSpec.name = c1WitnessParams.map Param.name ∧
      (∀ i (h : i < specs.length), (specs.get ⟨i, h⟩).info.extra.xOrder = some i) ∧
      ((c1WitnessParams.map Param.name).Nodup → (specs.map ParamSpec.name).Nodup) :=
  C1_input_schema_ordinals c1WitnessParams
    (by
      intro p hp
      simp only [c1WitnessParams, List.mem_cons, List.not_mem_nil, or_false] at hp
      rcases hp with rfl | rfl
      · exact validate_str "text"
      · exact validate_int "count")
    (by
      intro p hp
      simp only [c1WitnessParams, List.mem_cons, List.not_mem_nil, or_false] at hp
      rcases hp with rfl | rfl
      · left; rfl
      · left; rfl)

/-- C2: for a parameter declaring a non-empty choice set (distinct
members, as a set has): on a str annotation derivation synthesizes a
string enumeration whose members are exactly the declared choices in
declared order; on an int annotation likewise an integer enumeration; on
any other (validating) annotation derivation fails with
InvalidChoiceType. -/
theorem C2_choice_enum (nm : String) (t : Ann) (fi : FieldInfo) (cs : List PyVal)
    (hv : validate_input_type t nm = .ok ())
    (heff : (popChoices fi.extra).1 = some cs)
    (hne : cs ≠ [])
    (hkeys : (cs.map pyStr).Nodup) :
    (t = .str →
      get_input_create_model_kwargs [⟨nm, t, some (.fieldInfo fi)⟩] =
        .ok [⟨nm, .strEnum nm (cs.map fun v => (pyStr v, v)),
              ⟨fi.dflt, ⟨some 0, none, none⟩⟩⟩] ∧
      (cs.map fun v => (pyStr v, v)).map Prod.snd = cs) ∧
    (t = .int →
      get_input_create_model_kwargs [⟨nm, t, some (.fieldInfo fi)⟩] =
        .ok [⟨nm, .intEnum nm (cs.map fun v => (pyStr v, v)),
              ⟨fi.dflt, ⟨some 0, none, none⟩⟩⟩] ∧
      (cs.map fun v => (pyStr v, v)).map Prod.snd = cs) ∧
    (t ≠ .str → t ≠ .int →
      get_input_create_model_kwargs [⟨nm, t, some (.fieldInfo fi)⟩] =
        .error (.invalidChoiceType nm)) := by
  obtain ⟨d, xo, cho, enk⟩ := fi
  simp only [popChoices] at heff
  have htr : pyTruthyList (some cs) = true := by
    cases cs with
    | nil => exact absurd rfl hne
    | cons a l => rfl
  have hsnd : (cs.map fun v => (pyStr v, v)).map Prod.snd = cs := by
    rw [List.map_map]
    exact List.map_id cs
  have hdict : dictOfPairs (cs.map fun v => (pyStr v, v)) = cs.map fun v => (pyStr v, v) := by
    apply dictOfPairs_nodup
    simpa [Function.comp] using hkeys
  have hcs : (if pyTruthyList cho then cho else enk) = some cs := heff
  by_cases h1 : pyTruthyList cho = true
  · rw [if_pos h1] at hcs
    subst hcs
    refine ⟨?_, ?_, ?_⟩
    · rintro rfl
      refine ⟨?_, hsnd⟩
      simp only [get_input_create_model_kwargs, inputKwargsAux, processParam, hv, popChoices]
      simp only [h1, if_true, htr, Ann.isStrTag]
      rfl
    · rintro rfl
      refine ⟨?_, hsnd⟩
      simp only [get_input_create_model_kwargs, inputKwargsAux, processParam, hv, popChoices]
      simp only [h1, if_true, htr, Ann.isStrTag, Ann.isIntTag]
      simp only [Option.getD_some, hdict]
      rfl
    · intro hs hi
      have hst : t.isStrTag = false := by
        cases t <;> simp_all [Ann.isStrTag]
      have hit : t.isIntTag = false := by
        cases t <;> simp_all [Ann.isIntTag]
      simp only [get_input_create_model_kwargs, inputKwargsAux, processParam, hv, popChoices]
      simp only [h1, if_true, htr, hst, hit]
      rfl
  · rw [if_neg h1] at hcs
    subst hcs
    simp only [Bool.not_eq_true] at h1
    refine ⟨?_, ?_, ?_⟩
    · rintro rfl
      refine ⟨?_, hsnd⟩
      simp only [get_input_create_model_kwargs, inputKwargsAux, processParam, hv, popChoices]
      simp only [h1, Bool.false_eq_true, if_false, htr, Ann.isStrTag]
      rfl
    · rintro rfl
      refine ⟨?_, hsnd⟩
      simp only [get_input_create_model_kwargs, inputKwargsAux, processParam, hv, popChoices]
      simp only [h1, Bool.false_eq_true, if_false, htr, Ann.isStrTag, Ann.isIntTag]
      simp only [Option.getD_some, hdict]
      rfl
    · intro hs hi
      have hst : t.isStrTag = false := by
        cases t <;> simp_all [Ann.isStrTag]
      have hit : t.isIntTag = false := by
        cases t <;> simp_all [Ann.isIntTag]
      simp only [get_input_create_model_kwargs, inputKwargsAux, processParam, hv, popChoices]
      simp only [h1, Bool.false_eq_true, if_false, htr, hst, hit]
      rfl

theorem C2_choice_enum_witness :
    (get_input_create_model_kwargs
        [⟨"mode", .str, some (.fieldInfo ⟨none,
          ⟨none, some [.str "a", .str "b", .str "c"], none⟩⟩)⟩] =
      .ok [⟨"mode", .strEnum "mode"
            [("a", .str "a"), ("b", .str "b"), ("c", .str "c")],
            ⟨none, ⟨some 0, none, none⟩⟩⟩]) ∧
    (get_input_create_model_kwargs
        [⟨"x", .float, some (.fieldInfo ⟨none,
          ⟨none, some [.str "a", .str "b", .str "c"], none⟩⟩)⟩] =
      .error (.invalidChoiceType "x")) := by
  constructor
  · have h := (C2_choice_enum "mode" .str
      ⟨none, ⟨none, some [.str "a", .str "b", .str "c"], none⟩⟩
      [.str "a", .str "b", .str "c"]
      (validate_str "mode") rfl (by simp) (by simp [pyStr])).1 rfl
    exact h.1
  · exact (C2_choice_enum "x" .float
      ⟨none, ⟨none, some [.str "a", .str "b", .str "c"], none⟩⟩
      [.str "a", .str "b", .str "c"]
      (validate_float "x") rfl (by simp) (by simp [pyStr])).2.2
      (fun h => Ann.noConfusion h) (fun h => Ann.noConfusion h)

/-- C9: an empty declared choice set (`choices=[]`) is falsy, so the
parameter keeps its plain base type and derivation succeeds, exactly as
with no choices declared. -/
theorem C9_empty_choices (nm : String) (t : Ann) (d : Option PyVal)
    (xo : Option Nat) (ht : t = .str ∨ t = .int) :
    get_input_create_model_kwargs
        [⟨nm, t, some (.fieldInfo ⟨d, ⟨xo, some [], none⟩⟩)⟩] =
      get_input_create_model_kwargs
        [⟨nm, t, some (.fieldInfo ⟨d, ⟨xo, none, none⟩⟩)⟩] ∧
    get_input_create_model_kwargs
        [⟨nm, t, some (.fieldInfo ⟨d, ⟨xo, some [], none⟩⟩)⟩] =
      .ok [⟨nm, .plain t, ⟨d, ⟨some 0, none, none⟩⟩⟩] := by
  have hv : validate_input_type t nm = .ok () := by
    rcases ht with rfl | rfl
    · exact validate_str nm
    · exact validate_int nm
  have h2 : get_input_create_model_kwargs
      [⟨nm, t, some (.fieldInfo ⟨d, ⟨xo, some [], none⟩⟩)⟩] =
      .ok [⟨nm, .plain t, ⟨d, ⟨some 0, none, none⟩⟩⟩] := by
    simp only [get_input_create_model_kwargs, inputKwargsAux, processParam, hv, popChoices]
    rfl
  have h3 : get_input_create_model_kwargs
      [⟨nm, t, some (.fieldInfo ⟨d, ⟨xo, none, none⟩⟩)⟩] =
      .ok [⟨nm, .plain t, ⟨d, ⟨some 0, none, none⟩⟩⟩] := by
    simp only [get_input_create_model_kwargs, inputKwargsAux, processParam, hv, popChoices]
    rfl
  exact ⟨h2.trans h3.symm, h2⟩

theorem C9_empty_choices_witness :
    get_input_create_model_kwargs
        [⟨"n", .int, some (.fieldInfo ⟨some (.int 3), ⟨none, some [], none⟩⟩)⟩] =
      get_input_create_model_kwargs
        [⟨"n", .int, some (.fieldInfo ⟨some (.int 3), ⟨none, none, none⟩⟩)⟩] ∧
    get_input_create_model_kwargs
        [⟨"n", .int, some (.fieldInfo ⟨some (.int 3), ⟨none, some [], none⟩⟩)⟩] =
      .ok [⟨"n", .plain .int, ⟨some (.int 3), ⟨some 0, none, none⟩⟩⟩] :=
  C9_empty_choices "n" .int (some (.int 3)) none (.inr rfl)

/-- C3: output-schema derivation fails with MissingOutputType exactly when
the return annotation is absent; an explicit `Any` annotation succeeds
(wrapped in the root-model Output envelope). -/
theorem C3_missing_output_type (r : RAnn) :
    (get_output_type r = .error .missingOutputType ↔ r = .empty) ∧
    get_output_type .any = .ok ⟨.any, false, .rootModel⟩ := by
  constructor
  · constructor
    · intro h
      cases r with
      | empty => rfl
      | any => exact absurd h (by simp [get_output_type, rannName])
      | iter t => exact absurd h (by simp [get_output_type, rannName])
      | base t =>
        revert h
        simp only [get_output_type, rannName]
        split
        · intro h; exact Except.noConfusion h
        · split
          · intro h; exact Except.noConfusion h
          · intro h; exact Except.noConfusion h
      | custom nm =>
        revert h
        simp only [get_output_type, rannName]
        split
        · intro h; exact Except.noConfusion h
        · split
          · intro h; exact Except.noConfusion h
          · intro h; exact Except.noConfusion h
    · rintro rfl
      rfl
  · rfl

/-- C4: an `Iterator[T]` return annotation derives `List[T]` carrying the
iterator (streaming) marker; every other (present) return annotation
derives a model without the marker. -/
theorem C4_streaming_marker (t : Ann) (r : RAnn)
    (hne : r ≠ .empty) (hni : ∀ u, r ≠ .iter u) :
    get_output_type (.iter t) = .ok ⟨.annotatedList t, true, .rootModel⟩ ∧
    ∀ m, get_output_type r = .ok m → m.streaming = false := by
  refine ⟨rfl, ?_⟩
  intro m hm
  cases r with
  | empty => exact absurd rfl hne
  | any =>
    have h2 : Except.ok (ε := SchemaErr) m = .ok ⟨.any, false, .rootModel⟩ :=
      hm.symm.trans rfl
    cases (Except.ok.injEq _ _).mp h2
    rfl
  | iter u => exact absurd rfl (hni u)
  | base u =>
    revert hm
    simp only [get_output_type, rannName]
    split
    · intro hm
      cases (Except.ok.injEq _ _).mp hm
      rfl
    · split
      · intro hm
        cases (Except.ok.injEq _ _).mp hm
        rfl
      · intro hm
        cases (Except.ok.injEq _ _).mp hm
        rfl
  | custom nm =>
    revert hm
    simp only [get_output_type, rannName]
    split
    · intro hm
      cases (Except.ok.injEq _ _).mp hm
      rfl
    · split
      · intro hm
        cases (Except.ok.injEq _ _).mp hm
        rfl
      · intro hm
        cases (Except.ok.injEq _ _).mp hm
        rfl

theorem C4_streaming_marker_witness :
    get_output_type (.iter .int) = .ok ⟨.annotatedList .int, true, .rootModel⟩ ∧
    ∀ m, get_output_type (.base .str) = .ok m → m.streaming = false :=
  C4_streaming_marker .int (.base .str) (fun h => RAnn.noConfusion h)
    (fun _ h => RAnn.noConfusion h)

/-- C5: whenever the slim strategy raises (the exception is swallowed) or
yields no module, `load_slim_predictor_from_ref` returns exactly what
`load_predictor_from_ref` (full loading) returns on the same
reference. -/
theorem C5_slim_fallback (w : LoaderWorld) (ref methodName : String)
    (h : w.slimLoad (pySplitRef ref).1 (pySplitRef ref).2 methodName = .ok none ∨
         ∃ e, w.slimLoad (pySplitRef ref).1 (pySplitRef ref).2 methodName = .error e) :
    load_slim_predictor_from_ref w ref methodName = load_predictor_from_ref w ref := by
  unfold load_slim_predictor_from_ref load_predictor_from_ref
  cases hpy : w.py39 with
  | false => simp
  | true =>
    rcases h with h | ⟨e, h⟩ <;> simp [h]

/-- C5 witness world: slim loading always raises; full loading yields a
module whose predictor lookup succeeds. -/
def c5World : LoaderWorld :=
  { py39 := true
    slimLoad := fun _ _ _ => .error "slim loader failed"
    fullLoad := fun _ _ => .ok 7
    getPred := fun m _ => .ok (m + 1) }

theorem C5_slim_fallback_witness :
    load_slim_predictor_from_ref c5World "predict.py:Predictor" "predict" =
      load_predictor_from_ref c5World "predict.py:Predictor" :=
  C5_slim_fallback c5World "predict.py:Predictor" "predict"
    (.inr ⟨"slim loader failed", rfl⟩)

/-- C7: during import under either strategy the module body observes only
the program name (`sys.argv[:1]`), the loaded result depends only on that
program name, and afterwards the process argv is unchanged. -/
theorem C7_argv_hidden (argv argv2 : List String) (f : List String → Nat)
    (h : argv.head? = argv2.head?) :
    (∀ prog rest, load_full_predictor_from_file (prog :: rest) f =
        (f [prog], prog :: rest)) ∧
    (load_full_predictor_from_file argv f).2 = argv ∧
    (load_full_predictor_from_file argv f).1 =
      (load_full_predictor_from_file argv2 f).1 ∧
    (∀ prog rest, load_slim_predictor_from_file (prog :: rest) (some f) =
        (some (f [prog]), prog :: rest)) ∧
    (load_slim_predictor_from_file argv (some f)).2 = argv ∧
    (load_slim_predictor_from_file argv (some f)).1 =
      (load_slim_predictor_from_file argv2 (some f)).1 := by
  have htake : argv.take 1 = argv2.take 1 := by
    cases argv <;> cases argv2 <;> simp_all
  refine ⟨fun prog rest => rfl, rfl, ?_, fun prog rest => rfl, rfl, ?_⟩
  · simp [load_full_predictor_from_file, htake]
  · simp [load_slim_predictor_from_file, load_module_from_string, htake]

theorem C7_argv_hidden_witness :
    (∀ prog rest, load_full_predictor_from_file (prog :: rest) List.length =
        (List.length [prog], prog :: rest)) ∧
    (load_full_predictor_from_file ["cog", "--debug"] List.length).2 =
      ["cog", "--debug"] ∧
    (load_full_predictor_from_file ["cog", "--debug"] List.length).1 =
      (load_full_predictor_from_file ["cog"] List.length).1 ∧
    (∀ prog rest, load_slim_predictor_from_file (prog :: rest) (some List.length) =
        (some (List.length [prog]), prog :: rest)) ∧
    (load_slim_predictor_from_file ["cog", "--debug"] (some List.length)).2 =
      ["cog", "--debug"] ∧
    (load_slim_predictor_from_file ["cog", "--debug"] (some List.length)).1 =
      (load_slim_predictor_from_file ["cog"] (some List.length)).1 :=
  C7_argv_hidden ["cog", "--debug"] ["cog"] List.length rfl

/-- C6, counterexample environment: `COG_WEIGHTS` unset, the conventional
local path `"weights"` present. -/
def c6CexEnv : SetupEnv :=
  { pydanticV2 := false
    cogWeights := none
    weightsPathExists := true
    fileAdapter := fun _ => none
    pathAdapter := fun _ => none
    fileValidate := fun _ => 0
    pathValidate := fun _ => 0 }

/-- C6, as stated, is false: with `COG_WEIGHTS` unset and the local path
`"weights"` present, a `setup(self, weights: str)` predictor does not get
the local path — `run_setup` raises the ValueError instead of calling
setup. -/
theorem C6_counterexample :
    run_setup c6CexEnv (some (.plain .str)) = .error (.valueError (.base .str)) ∧
    ∀ c, run_setup c6CexEnv (some (.plain .str)) ≠ .ok c := by
  refine ⟨rfl, fun c h => ?_⟩
  rw [show run_setup c6CexEnv (some (.plain .str)) =
      .error (.valueError (.base .str)) from rfl] at h
  exact Except.noConfusion h

/-- C6 (amended): weights resolution for `setup()`.  With no `weights`
parameter, `setup()` is called bare.  Otherwise, a set (truthy)
`COG_WEIGHTS` wins: under pydantic v1 it is validated against the
declared type (File, Path, or str; anything else raises); under pydantic
v2 it is validated as File, then as Path, and only when both reject is
the declared type consulted (str passes the raw value, anything else
raises).  Otherwise, an existing local `"weights"` path is used only for
declared File or Path — any other declared type, str included, raises.
Otherwise `setup(weights=None)` is called with an explicit None. -/
theorem C6_weights_resolution (env : SetupEnv) (wa : Option WAnn) :
    (get_weights_type wa = none → run_setup env wa = .ok .noArgs) ∧
    ∀ wt, get_weights_type wa = some wt →
      (∀ url, env.cogWeights = some url → pyTruthyStr env.cogWeights = true →
        (env.pydanticV2 = false →
          (wt = .base .file →
            run_setup env wa = .ok (.withWeights (some (.fileV (env.fileValidate url))))) ∧
          (wt = .base .path →
            run_setup env wa = .ok (.withWeights (some (.pathV (env.pathValidate url))))) ∧
          (wt = .base .str →
            run_setup env wa = .ok (.withWeights (some (.strV url)))) ∧
          (wt ≠ .base .file → wt ≠ .base .path → wt ≠ .base .str →
            run_setup env wa = .error (.valueError wt))) ∧
        (env.pydanticV2 = true →
          (∀ tok, env.fileAdapter url = some tok →
            run_setup env wa = .ok (.withWeights (some (.fileV tok)))) ∧
          (env.fileAdapter url = none →
            (∀ tok, env.pathAdapter url = some tok →
              run_setup env wa = .ok (.withWeights (some (.pathV tok)))) ∧
            (env.pathAdapter url = none →
              (wt = .base .str →
                run_setup env wa = .ok (.withWeights (some (.strV url)))) ∧
              (wt ≠ .base .str →
                run_setup env wa = .error (.valueError wt)))))) ∧
      (pyTruthyStr env.cogWeights = false → env.weightsPathExists = true →
        (wt = .base .file → run_setup env wa = .ok (.withWeights (some .localFile))) ∧
        (wt = .base .path → run_setup env wa = .ok (.withWeights (some .localPath))) ∧
        (wt ≠ .base .file → wt ≠ .base .path →
          run_setup env wa = .error (.valueError wt))) ∧
      (pyTruthyStr env.cogWeights = false → env.weightsPathExists = false →
        run_setup env wa = .ok (.withWeights none)) := by
  constructor
  · intro h
    simp [run_setup, h]
  · intro wt hwt
    refine ⟨?_, ?_, ?_⟩
    · intro url hurl htr
      rw [hurl] at htr
      constructor
      · intro hv2
        refine ⟨?_, ?_, ?_, ?_⟩
        · rintro rfl
          simp [run_setup, hwt, htr, hurl, hv2]
        · rintro rfl
          simp [run_setup, hwt, htr, hurl, hv2]
        · rintro rfl
          simp [run_setup, hwt, htr, hurl, hv2]
        · intro hf hp hs
          simp [run_setup, hwt, htr, hurl, hv2, hf, hp, hs]
      · intro hv2
        refine ⟨?_, ?_⟩
        · intro tok htok
          simp [run_setup, hwt, htr, hurl, hv2, htok]
        · intro hfa
          refine ⟨?_, ?_⟩
          · intro tok htok
            simp [run_setup, hwt, htr, hurl, hv2, hfa, htok]
          · intro hpa
            refine ⟨?_, ?_⟩
            · rintro rfl
              simp [run_setup, hwt, htr, hurl, hv2, hfa, hpa]
            · intro hs
              simp [run_setup, hwt, htr, hurl, hv2, hfa, hpa, hs]
    · intro htr hex
      refine ⟨?_, ?_, ?_⟩
      · rintro rfl
        simp [run_setup, hwt, htr, hex]
      · rintro rfl
        simp [run_setup, hwt, htr, hex]
      · intro hf hp
        simp [run_setup, hwt, htr, hex, hf, hp]
    · intro htr hex
      simp [run_setup, hwt, htr, hex]

/-- C6 witness environment: pydantic v1, `COG_WEIGHTS` set,
`setup(self, weights: Optional[Path])`. -/
def c6WitnessEnv : SetupEnv :=
  { pydanticV2 := false
    cogWeights := some "https://example.com/weights.bin"
    weightsPathExists := false
    fileAdapter := fun _ => none
    pathAdapter := fun _ => none
    fileValidate := fun _ => 3
    pathValidate := fun _ => 5 }

theorem C6_weights_resolution_witness :
    run_setup c6WitnessEnv (some (.optional .path)) =
      .ok (.withWeights (some (.pathV 5))) :=
  ((((C6_weights_resolution c6WitnessEnv (some (.optional .path))).2
      (.base .path) rfl).1 "https://example.com/weights.bin" rfl rfl).1 rfl).2.1 rfl

/-- C8: a constructible Log has source "stdout" or "stderr"; any other
source fails the attrs validator, so no Log value is produced. -/
theorem C8_log_source (m s : String) :
    (∀ l, mkLog m s = some l → l.source = "stdout" ∨ l.source = "stderr") ∧
    (s ≠ "stdout" → s ≠ "stderr" → mkLog m s = none) := by
  constructor
  · intro l hl
    unfold mkLog at hl
    split at hl
    · rename_i hmem
      cases (Option.some.injEq _ _).mp hl
      simpa using hmem
    · exact Option.noConfusion hl
  · intro h1 h2
    unfold mkLog
    rw [if_neg]
    simp [h1, h2]

theorem C8_log_source_witness :
    ((Log.mk "starting" "stdout").source = "stdout" ∨
      (Log.mk "starting" "stdout").source = "stderr") ∧
    mkLog "starting" "oops" = none :=
  ⟨(C8_log_source "starting" "stdout").1 (Log.mk "starting" "stdout") rfl,
   (C8_log_source "starting" "oops").2 (by decide) (by decide)⟩

theorem unlink_swallow (fs : List String) (p : String) :
    (match unlink fs p with
     | .error .fileNotFound => Except.ok fs
     | r => r) = .ok (if p ∈ fs then fs.filter (fun q => q ≠ p) else fs) := by
  unfold unlink
  by_cases h : p ∈ fs <;> simp [h]

theorem mem_unlink_result (fs : List String) (p q : String) :
    q ∈ (if p ∈ fs then fs.filter (fun r => r ≠ p) else fs) ↔ (q ∈ fs ∧ q ≠ p) := by
  by_cases h : p ∈ fs
  · simp [h, List.mem_filter]
  · simp only [h, if_false]
    constructor
    · intro hq
      exact ⟨hq, fun hc => h (hc ▸ hq)⟩
    · exact fun hq => hq.1

/-- C10: `cleanup` never raises — `FileNotFoundError` on missing files is
swallowed — and its only effect is to remove the files named by the
path-like field values; everything else on the filesystem, and every
non-path field value, is untouched. -/
theorem C10_cleanup_total (fs : List String) (vals : List FieldVal) :
    ∃ fs2, cleanup fs vals = .ok fs2 ∧
      ∀ q, q ∈ fs2 ↔ (q ∈ fs ∧ q ∉ pathsOf vals) := by
  induction vals generalizing fs with
  | nil =>
    exact ⟨fs, rfl, by simp [pathsOf]⟩
  | cons v rest ih =>
    cases v with
    | urlPath p =>
      obtain ⟨fs2, h1, h2⟩ := ih (if p ∈ fs then fs.filter (fun r => r ≠ p) else fs)
      refine ⟨fs2, ?_, ?_⟩
      · show (cleanupStep fs (.urlPath p) >>= fun fs1 => cleanup fs1 rest) = .ok fs2
        rw [show cleanupStep fs (.urlPath p) =
            .ok (if p ∈ fs then fs.filter (fun r => r ≠ p) else fs) from unlink_swallow fs p]
        exact h1
      · intro q
        rw [h2 q, mem_unlink_result, pathsOf]
        simp only [List.mem_cons]
        tauto
    | pathVal p =>
      obtain ⟨fs2, h1, h2⟩ := ih (if p ∈ fs then fs.filter (fun r => r ≠ p) else fs)
      refine ⟨fs2, ?_, ?_⟩
      · show (cleanupStep fs (.pathVal p) >>= fun fs1 => cleanup fs1 rest) = .ok fs2
        rw [show cleanupStep fs (.pathVal p) =
            .ok (if p ∈ fs then fs.filter (fun r => r ≠ p) else fs) from unlink_swallow fs p]
        exact h1
      · intro q
        rw [h2 q, mem_unlink_result, pathsOf]
        simp only [List.mem_cons]
        tauto
    | otherVal pv =>
      obtain ⟨fs2, h1, h2⟩ := ih fs
      refine ⟨fs2, ?_, ?_⟩
      · show (cleanupStep fs (.otherVal pv) >>= fun fs1 => cleanup fs1 rest) = .ok fs2
        exact h1
      · intro q
        rw [h2 q, pathsOf]

end Cog
